import Mathlib

/-!
Verification of the queue-bot core logic (`src/queue_bot.py`).

The Python module keeps three dict-valued pieces of state — `netid_to_group`,
`group_to_members` and `previous_groups_in_queue` — and four pure-ish core
functions: `load_groups_from_csv`, `check_group_members_in_queue`,
`format_groups_message` and the diff/alert cycle body `check_queue_for_groups`
(plus the small helpers `extract_netid` and `set_interval_command`).

Python dicts preserve insertion order and assignment `d[k] = v` overwrites the
value in place (keeping the key's position) or appends a fresh key at the end.
We model a dict as an association list `List (String × α)` with `alookup`
(first-hit lookup) and `ainsert` (in-place overwrite or append); lists built
only by `ainsert` from `[]` have pairwise distinct keys, matching dicts.

Effects are made explicit: the CSV file is a list of events (each row either
parses or raises mid-iteration), the HTTP fetch result is passed in as the
question list (`[]` models both a transport error and an empty queue, exactly
as `get_questions_for_queue` returns `[]` in both cases), and the cycle body
returns the alert it would send together with the new previous-cycle state.
-/

/-- Lookup in the association-list model of a Python dict. -/
def alookup {α : Type} (k : String) : List (String × α) → Option α
  | [] => none
  | (k', v) :: rest => if k' = k then some v else alookup k rest

/-- `ainsert k v d` models the Python dict assignment `d[k] = v`: if `k` is
present its value is overwritten in place, otherwise `(k, v)` is appended. -/
def ainsert {α : Type} (k : String) (v : α) : List (String × α) → List (String × α)
  | [] => [(k, v)]
  | (k', v') :: rest => if k' = k then (k, v) :: rest else (k', v') :: ainsert k v rest

/-- The keys of an association list, in order. -/
def akeys {α : Type} (d : List (String × α)) : List String :=
  d.map Prod.fst

/-- A Python dict never holds the same key twice. -/
def keysNodup {α : Type} (d : List (String × α)) : Prop :=
  (akeys d).Nodup

instance keysNodup_decidable {α : Type} (d : List (String × α)) :
    Decidable (keysNodup d) :=
  inferInstanceAs (Decidable (akeys d).Nodup)

/-- The whitespace characters removed by Python's `str.strip()`. -/
def isSpaceChar (c : Char) : Bool :=
  c = ' ' || c = '\t' || c = '\n' || c = '\r' || c = '\x0b' || c = '\x0c'

/-- Python's `str.strip()`: drop leading and trailing whitespace.  (Stated on
the character list so that it evaluates inside the kernel.) -/
def pyStrip (s : String) : String :=
  String.mk (((s.data.dropWhile isSpaceChar).reverse.dropWhile isSpaceChar).reverse)

/-- Python's `str.lower()` on the ASCII identifiers this program handles. -/
def pyLower (s : String) : String :=
  String.mk (s.data.map Char.toLower)

/-- The `askedBy` JSON sub-object of a queue question: it may or may not
carry a `netid` field. -/
structure AskedBy where
  netid : Option String
deriving DecidableEq

/-- A question record from the queue service; the `askedBy` field may be
missing or null, and the `topic` field is not needed by the claims. -/
structure Question where
  askedBy : Option AskedBy
deriving DecidableEq

/-- `extract_netid` (src/queue_bot.py:61-74): returns the netid verbatim when
`askedBy` is present and carries one, and `None` otherwise. -/
def extract_netid (question : Question) : Option String :=
  match question.askedBy with
  | some a => a.netid
  | none => none

/-- One event produced by iterating the CSV reader: either a successfully
parsed row (a list of cells), or an exception raised by the reader.  An
`err` as the very first event also models a failure to open the file or to
read the header row. -/
inductive CsvEvent where
  | row (cells : List String)
  | err
deriving DecidableEq

/-- The cell loop body of `load_groups_from_csv` (src/queue_bot.py:98-102):
a non-empty cell is stripped, lower-cased, appended to the row's member list
and recorded in `netid_to_group` under the row's group id. -/
def row_cell_step (group_id : String)
    (st : List String × List (String × String)) (cell : String) :
    List String × List (String × String) :=
  if pyStrip cell ≠ "" then
    (st.1 ++ [pyLower (pyStrip cell)],
     ainsert (pyLower (pyStrip cell)) group_id st.2)
  else st

/-- The body of the row loop of `load_groups_from_csv`
(src/queue_bot.py:93-105): collect the trimmed, lower-cased non-empty cells
as the members, recording each in `netid_to_group`; add the group to
`group_to_members` only if it has members. -/
def process_row (cells : List String) (group_idx : Nat)
    (netid_to_group : List (String × String))
    (group_to_members : List (String × List String)) :
    List (String × String) × List (String × List String) :=
  let group_id := "Group " ++ Nat.repr group_idx
  let st := cells.foldl (row_cell_step group_id) ([], netid_to_group)
  let members := st.1
  if members.isEmpty then (st.2, group_to_members)
  else (st.2, ainsert group_id members group_to_members)

/-- The row loop of `load_groups_from_csv` (src/queue_bot.py:93-105): rows
are numbered from `group_idx`; an exception from the reader stops the loop,
and the surrounding `except` returns whatever was accumulated so far. -/
def loadRows : List CsvEvent → Nat → List (String × String) →
    List (String × List String) →
    List (String × String) × List (String × List String)
  | [], _, ntg, gtm => (ntg, gtm)
  | CsvEvent.err :: _, _, ntg, gtm => (ntg, gtm)
  | CsvEvent.row cells :: rest, group_idx, ntg, gtm =>
    let st := process_row cells group_idx ntg gtm
    loadRows rest (group_idx + 1) st.1 st.2

/-- `load_groups_from_csv` (src/queue_bot.py:77-110): the first event is the
header row (discarded); a failure to open or to read the header yields two
empty views; data rows are numbered from 1. -/
def load_groups_from_csv (source : List CsvEvent) :
    List (String × String) × List (String × List String) :=
  match source with
  | [] => ([], [])
  | CsvEvent.err :: _ => ([], [])
  | CsvEvent.row _ :: rest => loadRows rest 1 [] []

/-- The loop body of `check_group_members_in_queue` (src/queue_bot.py:121-131):
the state is the pair `(group_count, groups_with_multiple_members)`; a netid
known to the roster bumps its group's count and is appended to its group's
member list (`get`-defaulting an absent entry to the empty list). -/
def queue_scan_step (netid_to_group : List (String × String))
    (st : List (String × Nat) × List (String × List String)) (netid : String) :
    List (String × Nat) × List (String × List String) :=
  match alookup netid netid_to_group with
  | some group_id =>
    (ainsert group_id ((alookup group_id st.1).getD 0 + 1) st.1,
     ainsert group_id ((alookup group_id st.2).getD [] ++ [netid]) st.2)
  | none => st

/-- `check_group_members_in_queue` (src/queue_bot.py:113-138): walk the
netids, counting per group and appending each roster-known netid to its
group's list; keep only groups whose list has more than one entry.  The
`group_to_members` parameter is accepted but never used, as in the source. -/
def check_group_members_in_queue (netids : List String)
    (netid_to_group : List (String × String))
    (_group_to_members : List (String × List String)) :
    List (String × List String) :=
  let st := netids.foldl (queue_scan_step netid_to_group) ([], [])
  st.2.filter (fun p => decide (1 < p.2.length))

/-- The loop body of `format_groups_message` (src/queue_bot.py:148-158):
append the group header, the queued members, and — when some of the group's
roster members are not among the queued ones — a second line listing them. -/
def format_group_step (group_to_members : List (String × List String))
    (message : String) (p : String × List String) : String :=
  let message := message ++ "**" ++ p.1 ++ "**:\n"
  let message := message ++ "• Members in queue: " ++ ", ".intercalate p.2 ++ "\n"
  let all_members := (alookup p.1 group_to_members).getD []
  let not_in_queue := all_members.filter (fun m => !p.2.contains m)
  let message :=
    if not_in_queue.isEmpty then message
    else message ++ "• Members not in queue: " ++ ", ".intercalate not_in_queue ++ "\n"
  message ++ "\n"

/-- `format_groups_message` (src/queue_bot.py:141-160). -/
def format_groups_message (groups_in_queue : List (String × List String))
    (group_to_members : List (String × List String)) : String :=
  if groups_in_queue.isEmpty then
    "No groups with multiple members found in the queue."
  else
    groups_in_queue.foldl (format_group_step group_to_members)
      "⚠️ **GROUPS WITH MULTIPLE MEMBERS IN QUEUE** ⚠️\n\n"

/-- The netid-collection loop of `check_queue_for_groups`
(src/queue_bot.py:219-223): keep the netids that are present and truthy
(a `None` and an empty string are both skipped by `if netid:`). -/
def collect_netids (questions : List Question) : List String :=
  questions.foldl
    (fun netids question =>
      match extract_netid question with
      | some netid => if netid = "" then netids else netids ++ [netid]
      | none => netids)
    []

/-- The loop body of the new-group loop (src/queue_bot.py:232-242):
`prev_members.issuperset(current_members)` on Python sets holds exactly when
every element of the current member list occurs in the previous member
list. -/
def new_groups_step (previous_groups_in_queue : List (String × List String))
    (new_groups : List (String × List String)) (p : String × List String) :
    List (String × List String) :=
  match alookup p.1 previous_groups_in_queue with
  | none => ainsert p.1 p.2 new_groups
  | some prev_members =>
    if p.2.all (fun m => prev_members.contains m) then new_groups
    else ainsert p.1 p.2 new_groups

/-- The new-group loop of `check_queue_for_groups` (src/queue_bot.py:230-242):
a group goes into `new_groups` if it is absent from the previous cycle's
mapping, or if the previous members are not a superset of the current ones. -/
def compute_new_groups (groups_in_queue : List (String × List String))
    (previous_groups_in_queue : List (String × List String)) :
    List (String × List String) :=
  groups_in_queue.foldl (new_groups_step previous_groups_in_queue) []

/-- `check_queue_for_groups` (src/queue_bot.py:195-256) as a pure cycle body.
The fetch result is passed in as `questions` (`get_questions_for_queue`
returns `[]` on a transport error or a non-200 status, so `[]` models both a
failure and an empty queue); `channelOk` models a configured, resolvable
alert channel.  Returns the alert that would be sent (if any) and the new
value of `previous_groups_in_queue`.  Note the early returns: with no queue
id or with `not questions`, the previous state is returned unchanged. -/
def check_queue_for_groups (queue_id : String) (questions : List Question)
    (netid_to_group : List (String × String))
    (group_to_members : List (String × List String))
    (previous_groups_in_queue : List (String × List String))
    (channelOk : Bool) :
    Option String × List (String × List String) :=
  if queue_id = "" then (none, previous_groups_in_queue)
  else if questions.isEmpty then (none, previous_groups_in_queue)
  else
    let netids := collect_netids questions
    let groups_in_queue :=
      check_group_members_in_queue netids netid_to_group group_to_members
    let new_groups := compute_new_groups groups_in_queue previous_groups_in_queue
    let alert :=
      if new_groups.isEmpty then none
      else if channelOk then some (format_groups_message new_groups group_to_members)
      else none
    (alert, groups_in_queue)

/-- `set_interval_command` (src/queue_bot.py:376-389): a requested interval
below 60 seconds is rejected with a message and `CHECK_INTERVAL` keeps its
value; otherwise `CHECK_INTERVAL` becomes exactly the requested value. -/
def set_interval_command (check_interval : Int) (seconds : Int) : Int × String :=
  if seconds < 60 then
    (check_interval, "Interval must be at least 60 seconds.")
  else
    (seconds, "Check interval set to " ++ toString seconds ++ " seconds.")

/-- Specification helper: how one step of the queue scan extends the member
list recorded for one fixed group.  `combineOpt acc l` is the entry after
appending the identifiers `l`, starting from the optional entry `acc`. -/
def combineOpt (acc : Option (List String)) (l : List String) : Option (List String) :=
  match acc, l with
  | none, [] => none
  | none, l => some l
  | some cur, l => some (cur ++ l)

/-- Specification helper for the formatter: the text block rendered for one
group of the overlap result (src/queue_bot.py:148-158). -/
def group_block (group_to_members : List (String × List String))
    (p : String × List String) : String :=
  let all_members := (alookup p.1 group_to_members).getD []
  let not_in_queue := all_members.filter (fun m => !p.2.contains m)
  "**" ++ p.1 ++ "**:\n" ++ "• Members in queue: " ++ ", ".intercalate p.2 ++ "\n"
    ++ (if not_in_queue.isEmpty then ""
        else "• Members not in queue: " ++ ", ".intercalate not_in_queue ++ "\n")
    ++ "\n"

/-- Specification helper: the inclusion condition of the new-group loop
(src/queue_bot.py:233-240) as a predicate on one entry of the current
overlap result: the group is new when it is absent from the previous
mapping or some current member is missing from the previous members. -/
def new_group_pred (previous : List (String × List String))
    (p : String × List String) : Bool :=
  match alookup p.1 previous with
  | none => true
  | some prev_members => !p.2.all (fun m => prev_members.contains m)

/-- Specification helper: the normalized member identifiers of one roster
row, in cell order — exactly the identifiers the cell loop accumulates. -/
def norm_members (cells : List String) : List String :=
  (cells.filter (fun c => !(pyStrip c == ""))).map (fun c => pyLower (pyStrip c))

/-- The two roster views are consistent: every identifier's group entry
points at a recorded group whose member list contains the identifier. -/
def roster_inv (netid_to_group : List (String × String))
    (group_to_members : List (String × List String)) : Prop :=
  ∀ n g, alookup n netid_to_group = some g →
    ∃ ms, alookup g group_to_members = some ms ∧ n ∈ ms

/-- Every group recorded so far in `netid_to_group` carries a label
`"Group j"` with `1 ≤ j < group_idx`, so the next row's label is fresh. -/
def labels_below (netid_to_group : List (String × String)) (group_idx : Nat) : Prop :=
  ∀ n g, alookup n netid_to_group = some g →
    ∃ j, 1 ≤ j ∧ j < group_idx ∧ g = "Group " ++ Nat.repr j

/-- Proof helper: read a decimal digit character back as a number. -/
def decodeDigit (c : Char) : Nat := c.toNat - 48

/-- Proof helper: read a most-significant-first decimal character string back
as a number (left fold, as the digits are produced by `Nat.repr`). -/
def decodeChars (l : List Char) : Nat :=
  l.foldl (fun a c => a * 10 + decodeDigit c) 0

/-! ### Association-list (Python dict) lemmas -/

theorem keysNodup_nil {α : Type} : keysNodup ([] : List (String × α)) := by
  simp [keysNodup, akeys]

theorem keysNodup_cons {α : Type} {k' : String} {v' : α} {tl : List (String × α)}
    (h : keysNodup ((k', v') :: tl)) : k' ∉ akeys tl ∧ keysNodup tl := by
  unfold keysNodup akeys at h ⊢
  simp only [List.map_cons, List.nodup_cons] at h
  exact h

theorem mem_akeys_of_pair {α : Type} {k : String} {v : α} {d : List (String × α)}
    (h : (k, v) ∈ d) : k ∈ akeys d := by
  unfold akeys
  exact List.mem_map.mpr ⟨(k, v), h, rfl⟩

theorem alookup_ainsert_self {α : Type} (k : String) (v : α) (d : List (String × α)) :
    alookup k (ainsert k v d) = some v := by
  induction d with
  | nil => simp [ainsert, alookup]
  | cons hd tl ih =>
    obtain ⟨k', v'⟩ := hd
    by_cases h : k' = k <;> simp [ainsert, alookup, h, ih]

theorem alookup_ainsert_ne {α : Type} {k' k : String} (h : k' ≠ k) (v : α)
    (d : List (String × α)) : alookup k (ainsert k' v d) = alookup k d := by
  induction d with
  | nil => simp [ainsert, alookup, h]
  | cons hd tl ih =>
    obtain ⟨k₀, v₀⟩ := hd
    by_cases h₀ : k₀ = k' <;> by_cases h₁ : k₀ = k <;>
      simp_all [ainsert, alookup]

theorem mem_akeys_of_alookup {α : Type} {k : String} {v : α} {d : List (String × α)}
    (h : alookup k d = some v) : k ∈ akeys d := by
  induction d with
  | nil => simp [alookup] at h
  | cons hd tl ih =>
    obtain ⟨k', v'⟩ := hd
    unfold akeys
    simp only [List.map_cons, List.mem_cons]
    by_cases hk : k' = k
    · exact Or.inl hk.symm
    · simp only [alookup, hk, if_false] at h
      exact Or.inr (ih h)

theorem alookup_eq_none_of_not_mem {α : Type} {k : String} {d : List (String × α)}
    (h : k ∉ akeys d) : alookup k d = none := by
  cases halo : alookup k d with
  | none => rfl
  | some v => exact absurd (mem_akeys_of_alookup halo) h

theorem akeys_ainsert_of_not_mem {α : Type} {k : String} (v : α)
    {d : List (String × α)} (h : k ∉ akeys d) :
    akeys (ainsert k v d) = akeys d ++ [k] := by
  induction d with
  | nil => simp [ainsert, akeys]
  | cons hd tl ih =>
    obtain ⟨k', v'⟩ := hd
    unfold akeys at h
    simp only [List.map_cons, List.mem_cons] at h
    push_neg at h
    obtain ⟨hne, hmem⟩ := h
    have hk : ¬ k' = k := fun he => hne he.symm
    unfold akeys at ih ⊢
    simp only [ainsert, if_neg hk, List.map_cons, List.cons_append, List.cons.injEq,
      true_and]
    exact ih hmem

theorem akeys_ainsert_of_mem {α : Type} {k : String} (v : α)
    {d : List (String × α)} (h : k ∈ akeys d) :
    akeys (ainsert k v d) = akeys d := by
  induction d with
  | nil => simp [akeys] at h
  | cons hd tl ih =>
    obtain ⟨k', v'⟩ := hd
    by_cases hk : k' = k
    · simp [ainsert, hk, akeys]
    · have h' : k ∈ akeys tl := by
        unfold akeys at h ⊢
        simp only [List.map_cons, List.mem_cons] at h
        rcases h with h₀ | h₀
        · exact absurd h₀.symm hk
        · exact h₀
      unfold akeys at ih ⊢
      simp [ainsert, hk, ih h']

theorem keysNodup_ainsert {α : Type} (k : String) (v : α) {d : List (String × α)}
    (h : keysNodup d) : keysNodup (ainsert k v d) := by
  by_cases hk : k ∈ akeys d
  · unfold keysNodup
    rw [akeys_ainsert_of_mem v hk]
    exact h
  · unfold keysNodup
    rw [akeys_ainsert_of_not_mem v hk]
    refine List.Nodup.append h (List.nodup_singleton k) ?_
    intro x hx hmem
    simp only [List.mem_singleton] at hmem
    subst hmem
    exact hk hx

theorem ainsert_of_not_mem {α : Type} {k : String} (v : α)
    {d : List (String × α)} (h : k ∉ akeys d) :
    ainsert k v d = d ++ [(k, v)] := by
  induction d with
  | nil => simp [ainsert]
  | cons hd tl ih =>
    obtain ⟨k', v'⟩ := hd
    unfold akeys at h
    simp only [List.map_cons, List.mem_cons] at h
    push_neg at h
    obtain ⟨hne, hmem⟩ := h
    have hk : ¬ k' = k := fun he => hne he.symm
    simp [ainsert, if_neg hk, ih hmem]

theorem alookup_of_mem {α : Type} {k : String} {v : α} {d : List (String × α)}
    (hd : keysNodup d) (h : (k, v) ∈ d) : alookup k d = some v := by
  induction d with
  | nil => simp at h
  | cons hd₀ tl ih =>
    obtain ⟨k', v'⟩ := hd₀
    obtain ⟨hnk, hnd⟩ := keysNodup_cons hd
    rcases List.mem_cons.mp h with h | h
    · rw [Prod.mk.injEq] at h
      obtain ⟨rfl, rfl⟩ := h
      simp [alookup]
    · by_cases hk : k' = k
      · subst hk
        exact absurd (mem_akeys_of_pair h) hnk
      · simp only [alookup, hk, if_false]
        exact ih hnd h

theorem akeys_filter_subset {α : Type} {k : String} (p : String × α → Bool)
    {d : List (String × α)} (h : k ∈ akeys (d.filter p)) : k ∈ akeys d := by
  unfold akeys at h ⊢
  simp only [List.mem_map] at h ⊢
  obtain ⟨pair, hmem, hfst⟩ := h
  exact ⟨pair, List.mem_of_mem_filter hmem, hfst⟩

theorem keysNodup_filter {α : Type} (p : String × α → Bool)
    {d : List (String × α)} (h : keysNodup d) : keysNodup (d.filter p) := by
  unfold keysNodup akeys at h ⊢
  exact List.Nodup.sublist ((List.filter_sublist d).map Prod.fst) h

theorem alookup_filter {α : Type} (p : String × α → Bool) {d : List (String × α)}
    (hd : keysNodup d) (k : String) :
    alookup k (d.filter p)
      = match alookup k d with
        | none => none
        | some v => if p (k, v) then some v else none := by
  induction d with
  | nil => simp [alookup]
  | cons hd₀ tl ih =>
    obtain ⟨k', v'⟩ := hd₀
    obtain ⟨hnk, hnd⟩ := keysNodup_cons hd
    by_cases hk : k' = k
    · subst hk
      have hnone : alookup k' (tl.filter p) = none :=
        alookup_eq_none_of_not_mem (fun hx => hnk (akeys_filter_subset p hx))
      cases hp : p (k', v') with
      | true => simp [List.filter_cons, hp, alookup]
      | false => simp [List.filter_cons, hp, alookup, hnone]
    · have hih := ih hnd
      cases hp : p (k', v') with
      | true => simp [List.filter_cons, hp, alookup, hk, hih]
      | false => simp [List.filter_cons, hp, alookup, hk, hih]

/-! ### The group-overlap detector -/

theorem combineOpt_nil (acc : Option (List String)) : combineOpt acc [] = acc := by
  cases acc <;> simp [combineOpt]

theorem queue_scan_lookup (netid_to_group : List (String × String)) (g : String) :
    ∀ (netids : List String) (st : List (String × Nat) × List (String × List String)),
      alookup g (netids.foldl (queue_scan_step netid_to_group) st).2
        = combineOpt (alookup g st.2)
            (netids.filter (fun n => alookup n netid_to_group == some g)) := by
  intro netids
  induction netids with
  | nil =>
    intro st
    simp [combineOpt_nil]
  | cons n rest ih =>
    intro st
    simp only [List.foldl_cons, List.filter_cons]
    cases halo : alookup n netid_to_group with
    | none =>
      have hstep : queue_scan_step netid_to_group st n = st := by
        simp [queue_scan_step, halo]
      rw [hstep, show ((none : Option String) == some g) = false from rfl]
      simp only [Bool.false_eq_true, if_false]
      exact ih st
    | some gid =>
      by_cases hg : gid = g
      · subst hg
        have hstep : (queue_scan_step netid_to_group st n).2
            = ainsert gid ((alookup gid st.2).getD [] ++ [n]) st.2 := by
          simp [queue_scan_step, halo]
        rw [show (some gid == some gid) = true by simp]
        simp only [if_pos]
        rw [ih, hstep, alookup_ainsert_self]
        cases hacc : alookup gid st.2 with
        | none => simp [combineOpt]
        | some cur => simp [combineOpt]
      · have hstep : alookup g (queue_scan_step netid_to_group st n).2
            = alookup g st.2 := by
          simp only [queue_scan_step, halo]
          exact alookup_ainsert_ne hg _ _
        rw [show (some gid == some g) = false by simp [hg]]
        simp only [Bool.false_eq_true, if_false]
        rw [ih, hstep]

theorem queue_scan_keysNodup (netid_to_group : List (String × String)) :
    ∀ (netids : List String) (st : List (String × Nat) × List (String × List String)),
      keysNodup st.2 →
      keysNodup ((netids.foldl (queue_scan_step netid_to_group) st)).2 := by
  intro netids
  induction netids with
  | nil => exact fun st h => h
  | cons n rest ih =>
    intro st h
    simp only [List.foldl_cons]
    apply ih
    cases halo : alookup n netid_to_group with
    | none => simpa [queue_scan_step, halo] using h
    | some gid =>
      simp only [queue_scan_step, halo]
      exact keysNodup_ainsert _ _ h

theorem check_keysNodup (netids : List String)
    (netid_to_group : List (String × String))
    (gtm : List (String × List String)) :
    keysNodup (check_group_members_in_queue netids netid_to_group gtm) := by
  unfold check_group_members_in_queue
  exact keysNodup_filter _
    (queue_scan_keysNodup netid_to_group netids ([], []) keysNodup_nil)

theorem check_group_members_spec (netids : List String)
    (netid_to_group : List (String × String))
    (gtm : List (String × List String)) (g : String) :
    alookup g (check_group_members_in_queue netids netid_to_group gtm)
      = (if 2 ≤ (netids.filter (fun n => alookup n netid_to_group == some g)).length
         then some (netids.filter (fun n => alookup n netid_to_group == some g))
         else none) := by
  unfold check_group_members_in_queue
  have hnd : keysNodup ((netids.foldl (queue_scan_step netid_to_group) ([], [])).2) :=
    queue_scan_keysNodup netid_to_group netids ([], []) keysNodup_nil
  rw [alookup_filter _ hnd g, queue_scan_lookup netid_to_group g netids ([], [])]
  cases hfl : netids.filter (fun n => alookup n netid_to_group == some g) with
  | nil => simp [combineOpt, alookup]
  | cons x xs =>
    simp only [alookup, combineOpt]
    by_cases hlen : 2 ≤ (x :: xs).length
    · simp only [if_pos hlen]
      have ht : (decide (1 < (x :: xs).length)) = true := by
        simpa using hlen
      simp only [ht]
      cases xs with
      | nil => simp at hlen
      | cons y ys => simp
    · simp only [if_neg hlen]
      have ht : (decide (1 < (x :: xs).length)) = false := by
        simpa using hlen
      simp only [ht]
      cases xs with
      | nil => simp
      | cons y ys =>
        exfalso
        apply hlen
        simp only [List.length_cons]
        omega

/-! ### The change tracker -/

theorem new_groups_foldl (previous : List (String × List String)) :
    ∀ (current acc : List (String × List String)),
      keysNodup current →
      (∀ k, k ∈ akeys current → k ∉ akeys acc) →
      current.foldl (new_groups_step previous) acc
        = acc ++ current.filter (new_group_pred previous) := by
  intro current
  induction current with
  | nil =>
    intro acc _ _
    simp
  | cons p rest ih =>
    intro acc hnd hdisj
    obtain ⟨g, ms⟩ := p
    obtain ⟨hg, hrest⟩ := keysNodup_cons hnd
    have hgacc : g ∉ akeys acc := hdisj g (by unfold akeys; simp)
    have hdisj' : ∀ k, k ∈ akeys rest → k ∉ akeys (acc ++ [(g, ms)]) := by
      intro k hk
      unfold akeys
      simp only [List.map_append, List.mem_append, List.map_cons, List.map_nil,
        List.mem_singleton]
      push_neg
      refine ⟨hdisj k (by unfold akeys at hk ⊢; simp [hk]), ?_⟩
      intro he
      subst he
      exact hg hk
    have hdisj'' : ∀ k, k ∈ akeys rest → k ∉ akeys acc := by
      intro k hk
      exact hdisj k (by unfold akeys at hk ⊢; simp [hk])
    rw [List.foldl_cons, List.filter_cons]
    cases halo : alookup g previous with
    | none =>
      have hstep : new_groups_step previous acc (g, ms) = acc ++ [(g, ms)] := by
        simp only [new_groups_step, halo]
        exact ainsert_of_not_mem ms hgacc
      have hpred : new_group_pred previous (g, ms) = true := by
        simp [new_group_pred, halo]
      rw [hstep, ih (acc ++ [(g, ms)]) hrest hdisj', hpred]
      simp
    | some prev_members =>
      cases hall : ms.all (fun m => prev_members.contains m) with
      | true =>
        have hstep : new_groups_step previous acc (g, ms) = acc := by
          simp only [new_groups_step, halo, hall]
          simp
        have hpred : new_group_pred previous (g, ms) = false := by
          simp only [new_group_pred, halo]
          rw [hall]
          rfl
        rw [hstep, ih acc hrest hdisj'', hpred]
        simp
      | false =>
        have hstep : new_groups_step previous acc (g, ms) = acc ++ [(g, ms)] := by
          simp only [new_groups_step, halo, hall, Bool.false_eq_true, if_false]
          exact ainsert_of_not_mem ms hgacc
        have hpred : new_group_pred previous (g, ms) = true := by
          simp only [new_group_pred, halo]
          rw [hall]
          rfl
        rw [hstep, ih (acc ++ [(g, ms)]) hrest hdisj', hpred]
        simp

theorem compute_new_groups_eq_filter (current previous : List (String × List String))
    (h : keysNodup current) :
    compute_new_groups current previous
      = current.filter (new_group_pred previous) := by
  unfold compute_new_groups
  have := new_groups_foldl previous current [] h
    (by intro k _; unfold akeys; simp)
  simpa using this

theorem compute_new_groups_self (l : List (String × List String))
    (h : keysNodup l) : compute_new_groups l l = [] := by
  rw [compute_new_groups_eq_filter l l h]
  rw [List.filter_eq_nil_iff]
  intro p hp
  obtain ⟨g, ms⟩ := p
  simp [new_group_pred, alookup_of_mem h hp]

theorem check_mem_eq_filter {netids : List String}
    {netid_to_group : List (String × String)}
    {gtm : List (String × List String)} {g : String} {ms : List String}
    (h : (g, ms) ∈ check_group_members_in_queue netids netid_to_group gtm) :
    ms = netids.filter (fun n => alookup n netid_to_group == some g)
      ∧ 2 ≤ ms.length := by
  have halo := alookup_of_mem (check_keysNodup netids netid_to_group gtm) h
  rw [check_group_members_spec] at halo
  by_cases hlen :
      2 ≤ (netids.filter (fun n => alookup n netid_to_group == some g)).length
  · rw [if_pos hlen] at halo
    obtain rfl : ms = netids.filter (fun n => alookup n netid_to_group == some g) :=
      (Option.some.injEq .. ▸ halo.symm :)
    exact ⟨rfl, hlen⟩
  · rw [if_neg hlen] at halo
    exact absurd halo (by simp)

/-! ### The alert formatter -/

theorem string_foldl_shift : ∀ (xs : List String) (a : String),
    xs.foldl (fun r s => r ++ s) a = a ++ xs.foldl (fun r s => r ++ s) "" := by
  intro xs
  induction xs with
  | nil =>
    intro a
    simp [String.append_empty]
  | cons x rest ih =>
    intro a
    simp only [List.foldl_cons]
    rw [ih (a ++ x), ih ("" ++ x), String.empty_append, String.append_assoc]

theorem string_join_cons (x : String) (xs : List String) :
    String.join (x :: xs) = x ++ String.join xs := by
  simp only [String.join, List.foldl_cons]
  rw [string_foldl_shift xs ("" ++ x), String.empty_append]

theorem format_step_eq (group_to_members : List (String × List String))
    (message : String) (p : String × List String) :
    format_group_step group_to_members message p
      = message ++ group_block group_to_members p := by
  unfold format_group_step group_block
  by_cases he :
      (((alookup p.1 group_to_members).getD []).filter (fun m => !p.2.contains m)).isEmpty
  · simp only [he, if_true]
    simp [String.append_assoc, String.append_empty, String.empty_append]
  · simp only [he, if_false]
    simp [String.append_assoc]
    rw [← String.append_assoc "\n" "• Members not in queue: ",
      show ("\n" ++ "• Members not in queue: " : String)
        = "\n• Members not in queue: " from rfl]

theorem format_foldl (group_to_members : List (String × List String)) :
    ∀ (l : List (String × List String)) (init : String),
      l.foldl (format_group_step group_to_members) init
        = init ++ String.join (l.map (group_block group_to_members)) := by
  intro l
  induction l with
  | nil =>
    intro init
    simp [String.join, String.append_empty]
  | cons p rest ih =>
    intro init
    simp only [List.foldl_cons, List.map_cons]
    rw [format_step_eq, ih, string_join_cons, String.append_assoc]

/-! ### Injectivity of the decimal group labels

The loader names groups `"Group 1"`, `"Group 2"`, … via `Nat.repr`.  To know
that a freshly numbered group can never collide with an earlier one we prove
`Nat.repr` injective, by reading the digit string back with `decodeChars`. -/

theorem decodeDigit_digitChar (n : Nat) (h : n < 10) :
    decodeDigit (Nat.digitChar n) = n := by
  interval_cases n <;> rfl

theorem toDigitsCore_decode :
    ∀ (fuel n : Nat) (ds : List Char) (a : Nat), n < fuel →
      (Nat.toDigitsCore 10 fuel n ds).foldl (fun a c => a * 10 + decodeDigit c) a
        = ds.foldl (fun a c => a * 10 + decodeDigit c)
            (a * 10 ^ (Nat.toDigitsCore 10 fuel n []).length + n) := by
  intro fuel
  induction fuel with
  | zero =>
    intro n ds a hn
    exact absurd hn (Nat.not_lt_zero n)
  | succ f ih =>
    intro n ds a hn
    by_cases hz : n / 10 = 0
    · have hn10 : n < 10 := by omega
      have hmod : n % 10 = n := Nat.mod_eq_of_lt hn10
      simp only [Nat.toDigitsCore, hz, if_pos, List.foldl_cons, List.length_cons,
        List.length_nil, pow_one, zero_add]
      rw [decodeDigit_digitChar (n % 10) (Nat.mod_lt n (by omega)), hmod]
    · have hnpos : 0 < n := by
        rcases Nat.eq_zero_or_pos n with h0 | h0
        · exact absurd (by simp [h0]) hz
        · exact h0
      have hdiv_lt : n / 10 < n := Nat.div_lt_self hnpos (by omega)
      have hdiv_f : n / 10 < f := by omega
      simp only [Nat.toDigitsCore, hz, if_false]
      rw [ih (n / 10) (Nat.digitChar (n % 10) :: ds) a hdiv_f]
      rw [List.foldl_cons]
      rw [decodeDigit_digitChar (n % 10) (Nat.mod_lt n (by omega))]
      rw [Nat.toDigitsCore_lens_eq 10 f (n / 10) (Nat.digitChar (n % 10))]
      have hdm : n / 10 * 10 + n % 10 = n := by omega
      have harith : (a * 10 ^ (Nat.toDigitsCore 10 f (n / 10) []).length + n / 10) * 10
            + n % 10
          = a * 10 ^ ((Nat.toDigitsCore 10 f (n / 10) []).length + 1) + n := by
        calc (a * 10 ^ (Nat.toDigitsCore 10 f (n / 10) []).length + n / 10) * 10
              + n % 10
            = a * (10 ^ (Nat.toDigitsCore 10 f (n / 10) []).length * 10)
              + (n / 10 * 10 + n % 10) := by ring
          _ = a * 10 ^ ((Nat.toDigitsCore 10 f (n / 10) []).length + 1) + n := by
              rw [hdm, pow_succ]
      rw [harith]

theorem decodeChars_toDigits (n : Nat) : decodeChars (Nat.toDigits 10 n) = n := by
  unfold decodeChars Nat.toDigits
  have h := toDigitsCore_decode (n + 1) n [] 0 (Nat.lt_succ_self n)
  simpa using h

theorem nat_repr_inj {m n : Nat} (h : Nat.repr m = Nat.repr n) : m = n := by
  have hdata : Nat.toDigits 10 m = Nat.toDigits 10 n := by
    have hd := congrArg String.data h
    simpa [Nat.repr, List.asString] using hd
  have hdec := congrArg decodeChars hdata
  rwa [decodeChars_toDigits, decodeChars_toDigits] at hdec

theorem group_label_inj {j k : Nat}
    (h : "Group " ++ Nat.repr j = "Group " ++ Nat.repr k) : j = k := by
  apply nat_repr_inj
  have hdata := congrArg String.data h
  simp only [String.data_append] at hdata
  exact String.ext (List.append_cancel_left hdata)

/-! ### The roster loader -/

theorem row_cell_fold_members (group_id : String) :
    ∀ (cells : List String) (ms0 : List String) (ntg0 : List (String × String)),
      (cells.foldl (row_cell_step group_id) (ms0, ntg0)).1
        = ms0 ++ norm_members cells := by
  intro cells
  induction cells with
  | nil =>
    intro ms0 ntg0
    simp [norm_members]
  | cons cell rest ih =>
    intro ms0 ntg0
    by_cases hc : pyStrip cell = ""
    · have hstep : row_cell_step group_id (ms0, ntg0) cell = (ms0, ntg0) := by
        simp [row_cell_step, hc]
      have hnorm : norm_members (cell :: rest) = norm_members rest := by
        simp [norm_members, List.filter_cons, hc]
      rw [List.foldl_cons, hstep, ih, hnorm]
    · have hstep : row_cell_step group_id (ms0, ntg0) cell
          = (ms0 ++ [pyLower (pyStrip cell)],
             ainsert (pyLower (pyStrip cell)) group_id ntg0) := by
        simp [row_cell_step, hc]
      have hnorm : norm_members (cell :: rest)
          = pyLower (pyStrip cell) :: norm_members rest := by
        simp [norm_members, List.filter_cons, hc]
      rw [List.foldl_cons, hstep, ih, hnorm]
      simp

theorem row_cell_fold_lookup (group_id : String) :
    ∀ (cells : List String) (ms0 : List String) (ntg0 : List (String × String))
      (n : String),
      alookup n (cells.foldl (row_cell_step group_id) (ms0, ntg0)).2
        = if n ∈ norm_members cells then some group_id else alookup n ntg0 := by
  intro cells
  induction cells with
  | nil =>
    intro ms0 ntg0 n
    simp [norm_members]
  | cons cell rest ih =>
    intro ms0 ntg0 n
    by_cases hc : pyStrip cell = ""
    · have hstep : row_cell_step group_id (ms0, ntg0) cell = (ms0, ntg0) := by
        simp [row_cell_step, hc]
      have hnorm : norm_members (cell :: rest) = norm_members rest := by
        simp [norm_members, List.filter_cons, hc]
      rw [List.foldl_cons, hstep, ih, hnorm]
    · have hstep : row_cell_step group_id (ms0, ntg0) cell
          = (ms0 ++ [pyLower (pyStrip cell)],
             ainsert (pyLower (pyStrip cell)) group_id ntg0) := by
        simp [row_cell_step, hc]
      have hnorm : norm_members (cell :: rest)
          = pyLower (pyStrip cell) :: norm_members rest := by
        simp [norm_members, List.filter_cons, hc]
      rw [List.foldl_cons, hstep, ih, hnorm]
      by_cases hmem : n ∈ norm_members rest
      · simp [hmem]
      · by_cases heq : n = pyLower (pyStrip cell)
        · subst heq
          simp [hmem, alookup_ainsert_self]
        · have : pyLower (pyStrip cell) ≠ n := fun he => heq he.symm
          simp [hmem, heq, alookup_ainsert_ne this]

theorem process_row_lookup (cells : List String) (group_idx : Nat)
    (ntg : List (String × String)) (gtm : List (String × List String))
    (n : String) :
    alookup n (process_row cells group_idx ntg gtm).1
      = if n ∈ norm_members cells then some ("Group " ++ Nat.repr group_idx)
        else alookup n ntg := by
  unfold process_row
  by_cases he : ((cells.foldl (row_cell_step ("Group " ++ Nat.repr group_idx))
      ([], ntg)).1).isEmpty
  · simp only [he, if_pos]
    exact row_cell_fold_lookup _ cells [] ntg n
  · simp only [he, Bool.false_eq_true, if_false]
    exact row_cell_fold_lookup _ cells [] ntg n

theorem process_row_gtm (cells : List String) (group_idx : Nat)
    (ntg : List (String × String)) (gtm : List (String × List String)) :
    (process_row cells group_idx ntg gtm).2
      = if norm_members cells = [] then gtm
        else ainsert ("Group " ++ Nat.repr group_idx) (norm_members cells) gtm := by
  unfold process_row
  have hms : (cells.foldl (row_cell_step ("Group " ++ Nat.repr group_idx))
      ([], ntg)).1 = norm_members cells := by
    simpa using row_cell_fold_members _ cells [] ntg
  by_cases he : norm_members cells = []
  · rw [if_pos he]
    have : ((cells.foldl (row_cell_step ("Group " ++ Nat.repr group_idx))
        ([], ntg)).1).isEmpty = true := by
      rw [hms, he]
      rfl
    simp only [this, if_pos]
  · rw [if_neg he]
    have h2 : (norm_members cells).isEmpty = false := by
      simpa using he
    simp only [hms, h2, Bool.false_eq_true, if_false]

theorem process_row_preserves (cells : List String) (group_idx : Nat)
    (ntg : List (String × String)) (gtm : List (String × List String))
    (hidx : 1 ≤ group_idx) (hinv : roster_inv ntg gtm)
    (hlab : labels_below ntg group_idx) :
    roster_inv (process_row cells group_idx ntg gtm).1
        (process_row cells group_idx ntg gtm).2
      ∧ labels_below (process_row cells group_idx ntg gtm).1 (group_idx + 1) := by
  constructor
  · intro n g hg
    rw [process_row_lookup] at hg
    rw [process_row_gtm]
    by_cases hmem : n ∈ norm_members cells
    · rw [if_pos hmem] at hg
      obtain rfl : g = "Group " ++ Nat.repr group_idx := by
        cases hg
        rfl
      have hne : norm_members cells ≠ [] := by
        intro he
        rw [he] at hmem
        simp at hmem
      rw [if_neg hne, alookup_ainsert_self]
      exact ⟨norm_members cells, rfl, hmem⟩
    · rw [if_neg hmem] at hg
      obtain ⟨ms, hms, hnm⟩ := hinv n g hg
      obtain ⟨j, hj1, hj2, hjg⟩ := hlab n g hg
      by_cases he : norm_members cells = []
      · rw [if_pos he]
        exact ⟨ms, hms, hnm⟩
      · rw [if_neg he]
        have hgne : "Group " ++ Nat.repr group_idx ≠ g := by
          intro hcol
          rw [hjg] at hcol
          have := group_label_inj hcol
          omega
        rw [alookup_ainsert_ne hgne]
        exact ⟨ms, hms, hnm⟩
  · intro n g hg
    rw [process_row_lookup] at hg
    by_cases hmem : n ∈ norm_members cells
    · rw [if_pos hmem] at hg
      obtain rfl : g = "Group " ++ Nat.repr group_idx := by
        cases hg
        rfl
      exact ⟨group_idx, hidx, by omega, rfl⟩
    · rw [if_neg hmem] at hg
      obtain ⟨j, hj1, hj2, hjg⟩ := hlab n g hg
      exact ⟨j, hj1, by omega, hjg⟩

theorem loadRows_inv :
    ∀ (events : List CsvEvent) (group_idx : Nat) (ntg : List (String × String))
      (gtm : List (String × List String)),
      1 ≤ group_idx → roster_inv ntg gtm → labels_below ntg group_idx →
      roster_inv (loadRows events group_idx ntg gtm).1
        (loadRows events group_idx ntg gtm).2 := by
  intro events
  induction events with
  | nil =>
    intro group_idx ntg gtm _ hinv _
    exact hinv
  | cons e rest ih =>
    intro group_idx ntg gtm hidx hinv hlab
    cases e with
    | err => exact hinv
    | row cells =>
      have hp := process_row_preserves cells group_idx ntg gtm hidx hinv hlab
      exact ih (group_idx + 1) _ _ (by omega) hp.1 hp.2

theorem load_groups_inv (source : List CsvEvent) :
    roster_inv (load_groups_from_csv source).1 (load_groups_from_csv source).2 := by
  cases source with
  | nil =>
    intro n g hg
    simp [alookup] at hg
  | cons e rest =>
    cases e with
    | err =>
      intro n g hg
      simp [load_groups_from_csv, alookup] at hg
    | row cells =>
      have : roster_inv [] [] := by
        intro n g hg
        simp [alookup] at hg
      exact loadRows_inv rest 1 [] [] (by omega) this
        (by intro n g hg; simp [alookup] at hg)

theorem loadRows_append_err (post : List CsvEvent) :
    ∀ (rows : List CsvEvent) (group_idx : Nat) (ntg : List (String × String))
      (gtm : List (String × List String)),
      (∀ e ∈ rows, e ≠ CsvEvent.err) →
      loadRows (rows ++ CsvEvent.err :: post) group_idx ntg gtm
        = loadRows rows group_idx ntg gtm := by
  intro rows
  induction rows with
  | nil =>
    intro group_idx ntg gtm _
    simp [loadRows]
  | cons e rest ih =>
    intro group_idx ntg gtm h
    cases e with
    | err => exact absurd rfl (h CsvEvent.err (by simp))
    | row cells =>
      simp only [List.cons_append, loadRows]
      exact ih (group_idx + 1) _ _ (fun e he => h e (by simp [he]))

/-! ### The claims -/

/-- C1: for every pair of overlap mappings `current` and `previous` (overlap
mappings have distinct group keys, as Python dicts do), the change tracker's
diff includes a group `G` with its full current member list if and only if
`G` is absent from `previous` or the set of members listed for `G` in
`current` is not a subset of those in `previous`; in particular with
`previous = {G: [a,b]}` and `current = {G: [a,c]}` the group is included
even though the member count did not grow. -/
theorem C1_diff_includes_iff :
    (∀ (current previous : List (String × List String)), keysNodup current →
      ∀ (g : String) (ms : List String),
        (g, ms) ∈ compute_new_groups current previous
          ↔ ((g, ms) ∈ current ∧
              (alookup g previous = none ∨
               ∃ prev_members, alookup g previous = some prev_members
                 ∧ ∃ m ∈ ms, m ∉ prev_members)))
    ∧ compute_new_groups [("G", ["a", "c"])] [("G", ["a", "b"])]
        = [("G", ["a", "c"])] := by
  constructor
  · intro current previous hnd g ms
    rw [compute_new_groups_eq_filter current previous hnd, List.mem_filter]
    constructor
    · rintro ⟨hmem, hpred⟩
      refine ⟨hmem, ?_⟩
      simp only [new_group_pred] at hpred
      cases halo : alookup g previous with
      | none => exact Or.inl rfl
      | some pm =>
        right
        refine ⟨pm, rfl, ?_⟩
        rw [halo] at hpred
        simpa using hpred
    · rintro ⟨hmem, hcond⟩
      refine ⟨hmem, ?_⟩
      simp only [new_group_pred]
      rcases hcond with halo | ⟨pm, halo, m, hm, hnm⟩
      · rw [halo]
      · rw [halo]
        simp only [Bool.not_eq_true']
        rw [List.all_eq_false]
        exact ⟨m, hm, by simpa using hnm⟩
  · decide

/-- C1 witness: the non-subset example `{G: [a,c]}` against `{G: [a,b]}` is
included by the tracker. -/
theorem C1_diff_includes_iff_witness :
    ("G", ["a", "c"]) ∈ compute_new_groups [("G", ["a", "c"])] [("G", ["a", "b"])] :=
  (C1_diff_includes_iff.1 [("G", ["a", "c"])] [("G", ["a", "b"])] (by decide)
      "G" ["a", "c"]).mpr
    ⟨by decide, Or.inr ⟨["a", "b"], by decide, "c", by decide, by decide⟩⟩

/-- C2 counterexample: on a fetch failure or empty fetch (the fetch helper
returns an empty list in both cases) the cycle returns early, so the
previous-cycle state keeps its prior value `{Group 1: [a,b]}` instead of
being replaced by the empty mapping as the claim states. -/
theorem C2_counterexample :
    (check_queue_for_groups "queue1" [] [("a", "Group 1")]
        [("Group 1", ["a", "b"])] [("Group 1", ["a", "b"])] true).2
      = [("Group 1", ["a", "b"])]
    ∧ [("Group 1", ["a", "b"])] ≠ ([] : List (String × List String)) := by
  exact ⟨by decide, by decide⟩

/-- C2 (amended): only a cycle whose fetch yields a non-empty question list
(and whose queue id is configured) ends by replacing the previous-cycle
state with the full current overlap result; on a fetch failure or an empty
fetch the cycle returns early, leaving the previous-cycle state unchanged
and sending no alert. -/
theorem C2_cycle_state_update :
    ∀ (queue_id : String) (questions : List Question)
      (ntg : List (String × String)) (gtm prev : List (String × List String))
      (channelOk : Bool),
      (questions = [] →
        check_queue_for_groups queue_id questions ntg gtm prev channelOk
          = (none, prev))
      ∧ (queue_id ≠ "" → questions ≠ [] →
        (check_queue_for_groups queue_id questions ntg gtm prev channelOk).2
          = check_group_members_in_queue (collect_netids questions) ntg gtm) := by
  intro queue_id questions ntg gtm prev channelOk
  constructor
  · intro h
    subst h
    by_cases hq : queue_id = "" <;> simp [check_queue_for_groups, hq]
  · intro hqid hqs
    have hne : questions.isEmpty = false := by
      simpa [List.isEmpty_iff] using hqs
    simp [check_queue_for_groups, hqid, hne]

/-- C2 witness: a successful one-question cycle replaces the previous-cycle
state with the overlap result computed from the fetched questions. -/
theorem C2_cycle_state_update_witness :
    (check_queue_for_groups "q" [⟨some ⟨some "a"⟩⟩] [("a", "Group 1")] [] [] true).2
      = check_group_members_in_queue (collect_netids [⟨some ⟨some "a"⟩⟩])
          [("a", "Group 1")] [] :=
  (C2_cycle_state_update "q" [⟨some ⟨some "a"⟩⟩] [("a", "Group 1")] [] [] true).2
    (by decide) (by decide)

/-- C3 counterexample: a reader error after one good data row returns the
views populated from that row, not empty ones. -/
theorem C3_counterexample :
    load_groups_from_csv [CsvEvent.row ["h"], CsvEvent.row ["a", "b"], CsvEvent.err]
      = ([("a", "Group 1"), ("b", "Group 1")], [("Group 1", ["a", "b"])])
    ∧ ([("Group 1", ["a", "b"])] : List (String × List String)) ≠ [] := by
  exact ⟨by decide, by decide⟩

/-- C3 (amended): a parse error makes the loader return, without
propagating, exactly the views accumulated from the rows read before the
error; in particular an error before any data row (failure to open the
source or to read the header) yields both views empty. -/
theorem C3_parse_error_behavior :
    (∀ (post : List CsvEvent),
      load_groups_from_csv (CsvEvent.err :: post) = ([], []))
    ∧ ∀ (pre post : List CsvEvent), (∀ e ∈ pre, e ≠ CsvEvent.err) →
        load_groups_from_csv (pre ++ CsvEvent.err :: post)
          = load_groups_from_csv pre := by
  constructor
  · intro post
    rfl
  · intro pre post h
    cases pre with
    | nil => rfl
    | cons e rest =>
      cases e with
      | err => exact absurd rfl (h CsvEvent.err (by simp))
      | row cells =>
        simp only [List.cons_append, load_groups_from_csv]
        exact loadRows_append_err post rest 1 [] [] (fun e he => h e (by simp [he]))

/-- C3 witness: an error right after two clean rows leaves the result equal
to loading just the two clean rows. -/
theorem C3_parse_error_behavior_witness :
    load_groups_from_csv
        ([CsvEvent.row ["h"], CsvEvent.row ["a", "b"]] ++ CsvEvent.err :: [])
      = load_groups_from_csv [CsvEvent.row ["h"], CsvEvent.row ["a", "b"]] :=
  C3_parse_error_behavior.2 [CsvEvent.row ["h"], CsvEvent.row ["a", "b"]] []
    (by decide)

/-- C4: for every input identifier list and roster, the detector's entry for
each group `g` is exactly the sub-list of input identifiers (input order,
duplicates preserved) whose roster lookup is `g`, kept only when that
sub-list has length at least 2 — identifiers absent from the roster
contribute to no group — and the detector is deterministic. -/
theorem C4_detector_spec :
    ∀ (netids : List String) (netid_to_group : List (String × String))
      (gtm : List (String × List String)),
      (∀ g, alookup g (check_group_members_in_queue netids netid_to_group gtm)
        = (if 2 ≤ (netids.filter (fun n => alookup n netid_to_group == some g)).length
           then some (netids.filter (fun n => alookup n netid_to_group == some g))
           else none))
      ∧ check_group_members_in_queue netids netid_to_group gtm
          = check_group_members_in_queue netids netid_to_group gtm := by
  intro netids netid_to_group gtm
  exact ⟨fun g => check_group_members_spec netids netid_to_group gtm g, rfl⟩

/-- C5: every group present in a detector output has at least 2 entries in
its member list; duplicate queue entries count multiple times. -/
theorem C5_threshold :
    ∀ (netids : List String) (netid_to_group : List (String × String))
      (gtm : List (String × List String)) (g : String) (ms : List String),
      (g, ms) ∈ check_group_members_in_queue netids netid_to_group gtm →
      2 ≤ ms.length := by
  intro netids netid_to_group gtm g ms h
  exact (check_mem_eq_filter h).2

/-- C5 witness: a duplicated single identifier produces a group entry of
length 2 (duplicates count), and the threshold theorem applies to it. -/
theorem C5_threshold_witness :
    ("Group 1", ["a", "a"])
        ∈ check_group_members_in_queue ["a", "a"] [("a", "Group 1")] []
    ∧ 2 ≤ (["a", "a"] : List String).length :=
  ⟨by decide,
    C5_threshold ["a", "a"] [("a", "Group 1")] [] "Group 1" ["a", "a"] (by decide)⟩

/-- C6: for every roster source, every identifier in the identifier-to-group
view points at a group that is present in the group-to-members view and
whose member list contains the identifier, even with last-write-wins
overwrites for identifiers appearing in several rows. -/
theorem C6_roster_views_consistent :
    ∀ (source : List CsvEvent) (n g : String),
      alookup n (load_groups_from_csv source).1 = some g →
      ∃ ms, alookup g (load_groups_from_csv source).2 = some ms ∧ n ∈ ms :=
  fun source => load_groups_inv source

/-- C6 witness: with `a` in rows 1 and 2, the identifier map's last-write
entry `Group 2` is present in the group map and lists `a`. -/
theorem C6_roster_views_consistent_witness :
    alookup "a" (load_groups_from_csv
        [CsvEvent.row ["h"], CsvEvent.row ["a"], CsvEvent.row ["a", "b"]]).1
      = some "Group 2"
    ∧ ∃ ms, alookup "Group 2" (load_groups_from_csv
        [CsvEvent.row ["h"], CsvEvent.row ["a"], CsvEvent.row ["a", "b"]]).2
        = some ms ∧ "a" ∈ ms :=
  ⟨by decide, C6_roster_views_consistent _ "a" "Group 2" (by decide)⟩

/-- C7: an empty overlap result formats to the fixed "no groups" sentence;
a non-empty one formats to the banner followed by one block per group in
insertion order, where each block carries the group label, the comma-joined
queued members, and a second line listing the group's other roster members
exactly when some roster member is not among the queued ones. -/
theorem C7_formatter :
    ∀ (groups_in_queue group_to_members : List (String × List String)),
      (groups_in_queue = [] →
        format_groups_message groups_in_queue group_to_members
          = "No groups with multiple members found in the queue.")
      ∧ (groups_in_queue ≠ [] →
        format_groups_message groups_in_queue group_to_members
          = "⚠️ **GROUPS WITH MULTIPLE MEMBERS IN QUEUE** ⚠️\n\n"
            ++ String.join (groups_in_queue.map (group_block group_to_members)))
      ∧ (∀ p : String × List String,
          group_block group_to_members p
            = "**" ++ p.1 ++ "**:\n" ++ "• Members in queue: "
              ++ ", ".intercalate p.2 ++ "\n"
              ++ (if ((alookup p.1 group_to_members).getD []).filter
                      (fun m => !p.2.contains m) = []
                  then ""
                  else "• Members not in queue: "
                    ++ ", ".intercalate (((alookup p.1 group_to_members).getD
                        []).filter (fun m => !p.2.contains m)) ++ "\n")
              ++ "\n") := by
  intro giq gtm
  refine ⟨?_, ?_, ?_⟩
  · intro h
    subst h
    rfl
  · intro h
    have hne : giq.isEmpty = false := by
      simpa [List.isEmpty_iff] using h
    simp only [format_groups_message, hne, Bool.false_eq_true, if_false]
    exact format_foldl gtm giq _
  · intro p
    by_cases habs :
        ((alookup p.1 gtm).getD []).filter (fun m => !p.2.contains m) = []
    · have he : (((alookup p.1 gtm).getD []).filter
          (fun m => !p.2.contains m)).isEmpty = true := by
        rw [habs]
        rfl
      simp [group_block, he, habs]
    · have he : (((alookup p.1 gtm).getD []).filter
          (fun m => !p.2.contains m)).isEmpty = false := by
        simpa using habs
      simp [group_block, he, habs]

/-- C7 witness: the end-to-end example — `Group 1 = [alice, bob]` all queued
— renders as the banner plus that group's block. -/
theorem C7_formatter_witness :
    format_groups_message [("Group 1", ["alice", "bob"])]
        [("Group 1", ["alice", "bob"]), ("Group 2", ["carol"])]
      = "⚠️ **GROUPS WITH MULTIPLE MEMBERS IN QUEUE** ⚠️\n\n"
        ++ String.join ([("Group 1", ["alice", "bob"])].map
            (group_block [("Group 1", ["alice", "bob"]), ("Group 2", ["carol"])])) :=
  (C7_formatter [("Group 1", ["alice", "bob"])]
      [("Group 1", ["alice", "bob"]), ("Group 2", ["carol"])]).2.1 (by decide)

/-- C8: the cycle sends no alert when the change tracker's output is empty,
and a second consecutive cycle over the same questions and roster computes
an empty diff and sends no alert. -/
theorem C8_no_repeat :
    ∀ (queue_id : String) (questions : List Question)
      (ntg : List (String × String)) (gtm prev : List (String × List String))
      (channelOk : Bool),
      (compute_new_groups
          (check_group_members_in_queue (collect_netids questions) ntg gtm)
          prev = [] →
        (check_queue_for_groups queue_id questions ntg gtm prev channelOk).1
          = none)
      ∧ (check_queue_for_groups queue_id questions ntg gtm
          (check_queue_for_groups queue_id questions ntg gtm prev channelOk).2
          channelOk).1 = none
      ∧ (queue_id ≠ "" → questions ≠ [] →
          compute_new_groups
            (check_group_members_in_queue (collect_netids questions) ntg gtm)
            (check_queue_for_groups queue_id questions ntg gtm prev channelOk).2
            = []) := by
  intro queue_id questions ntg gtm prev channelOk
  by_cases hqid : queue_id = ""
  · refine ⟨?_, ?_, ?_⟩
    · intro _
      simp [check_queue_for_groups, hqid]
    · simp [check_queue_for_groups, hqid]
    · intro h _
      exact absurd hqid h
  · cases hqs : questions.isEmpty with
    | true =>
      have hq : questions = [] := by
        simpa [List.isEmpty_iff] using hqs
      subst hq
      refine ⟨?_, ?_, ?_⟩
      · intro _
        simp [check_queue_for_groups, hqid]
      · simp [check_queue_for_groups, hqid]
      · intro _ h
        exact absurd rfl h
    | false =>
      have hkn := check_keysNodup (collect_netids questions) ntg gtm
      have hdiff : compute_new_groups
          (check_group_members_in_queue (collect_netids questions) ntg gtm)
          (check_group_members_in_queue (collect_netids questions) ntg gtm)
          = [] := compute_new_groups_self _ hkn
      have hr2 : (check_queue_for_groups queue_id questions ntg gtm prev
          channelOk).2
          = check_group_members_in_queue (collect_netids questions) ntg gtm := by
        simp [check_queue_for_groups, hqid, hqs]
      refine ⟨?_, ?_, ?_⟩
      · intro h
        simp [check_queue_for_groups, hqid, hqs, h]
      · rw [hr2]
        simp [check_queue_for_groups, hqid, hqs, hdiff]
      · intro _ _
        rw [hr2]
        exact hdiff

/-- C8 witness: two members of one group queued, run for two consecutive
cycles from an empty previous state — the second cycle's diff is empty and
its alert is `none`. -/
theorem C8_no_repeat_witness :
    (check_queue_for_groups "q" [⟨some ⟨some "a"⟩⟩, ⟨some ⟨some "b"⟩⟩]
        [("a", "Group 1"), ("b", "Group 1")] []
        (check_queue_for_groups "q" [⟨some ⟨some "a"⟩⟩, ⟨some ⟨some "b"⟩⟩]
          [("a", "Group 1"), ("b", "Group 1")] [] [] true).2 true).1 = none
    ∧ compute_new_groups
        (check_group_members_in_queue
          (collect_netids [⟨some ⟨some "a"⟩⟩, ⟨some ⟨some "b"⟩⟩])
          [("a", "Group 1"), ("b", "Group 1")] [])
        (check_queue_for_groups "q" [⟨some ⟨some "a"⟩⟩, ⟨some ⟨some "b"⟩⟩]
          [("a", "Group 1"), ("b", "Group 1")] [] [] true).2 = [] :=
  ⟨(C8_no_repeat "q" [⟨some ⟨some "a"⟩⟩, ⟨some ⟨some "b"⟩⟩]
      [("a", "Group 1"), ("b", "Group 1")] [] [] true).2.1,
   (C8_no_repeat "q" [⟨some ⟨some "a"⟩⟩, ⟨some ⟨some "b"⟩⟩]
      [("a", "Group 1"), ("b", "Group 1")] [] [] true).2.2 (by decide) (by decide)⟩

/-- C9: the set-interval command rejects every request below the 60-second
floor with a message, leaving the interval unchanged, and sets the interval
to exactly the requested value at or above the floor. -/
theorem C9_set_interval :
    ∀ (check_interval seconds : Int),
      (seconds < 60 →
        set_interval_command check_interval seconds
          = (check_interval, "Interval must be at least 60 seconds."))
      ∧ (60 ≤ seconds →
        (set_interval_command check_interval seconds).1 = seconds) := by
  intro check_interval seconds
  constructor
  · intro h
    simp [set_interval_command, h]
  · intro h
    simp [set_interval_command, not_lt.mpr h]

/-- C9 witness: 59 seconds is rejected keeping the old interval 300, and
3600 seconds is accepted exactly. -/
theorem C9_set_interval_witness :
    set_interval_command 300 59 = (300, "Interval must be at least 60 seconds.")
    ∧ (set_interval_command 300 3600).1 = 3600 :=
  ⟨(C9_set_interval 300 59).1 (by decide),
   (C9_set_interval 300 3600).2 (by decide)⟩

/-- C10: identifiers are used verbatim on the detection path —
`extract_netid` returns the netid unmodified, every member of a detector
output is a literal key of the roster map, and an identifier differing from
a normalized roster key only by case or surrounding whitespace matches no
group (here `"Abc123"` and `" abc123 "` against the roster key
`"abc123"`). -/
theorem C10_verbatim_lookup :
    (∀ s : String, extract_netid ⟨some ⟨some s⟩⟩ = some s)
    ∧ (∀ (netids : List String) (netid_to_group : List (String × String))
        (gtm : List (String × List String)) (g : String) (ms : List String),
        (g, ms) ∈ check_group_members_in_queue netids netid_to_group gtm →
        ∀ n ∈ ms, alookup n netid_to_group = some g)
    ∧ check_group_members_in_queue ["Abc123", " abc123 ", "abc123"]
        (load_groups_from_csv
          [CsvEvent.row ["h"], CsvEvent.row ["abc123", "xyz"]]).1
        (load_groups_from_csv
          [CsvEvent.row ["h"], CsvEvent.row ["abc123", "xyz"]]).2 = []
    ∧ pyLower (pyStrip "Abc123") = "abc123"
    ∧ pyLower (pyStrip " abc123 ") = "abc123" := by
  refine ⟨fun s => rfl, ?_, by decide, by decide, by decide⟩
  intro netids netid_to_group gtm g ms h n hn
  obtain ⟨hms, _⟩ := check_mem_eq_filter h
  rw [hms, List.mem_filter] at hn
  exact eq_of_beq hn.2

/-- C10 witness: a member of a concrete detector output is a literal roster
key mapping to its group. -/
theorem C10_verbatim_lookup_witness :
    ("Group 1", ["a", "a"])
        ∈ check_group_members_in_queue ["a", "a"] [("a", "Group 1")] []
    ∧ alookup "a" [("a", "Group 1")] = some "Group 1" :=
  ⟨by decide,
    C10_verbatim_lookup.2.1 ["a", "a"] [("a", "Group 1")] [] "Group 1"
      ["a", "a"] (by decide) "a" (by decide)⟩
